import Mathlib

/-!
Verification development for the ea-agent scheduling assistant.

Shallow embedding of the repository's core logic:
* `computeFreeSlots` — the availability engine (src/tools/calendar.ts);
* the Thread Store upsert (`upsertThread`, src/db/index.ts);
* the preference write boundary (`toolSetPreference`, src/tools/preferences.ts);
* the `book_meeting` and `cancel_meeting` branches of `executeTool` (src/agent.ts).

Timestamps are modelled as integers in milliseconds since an epoch whose day 0
is a Thursday (as for the Unix epoch used by the JavaScript `Date`), and ISO
date strings ("YYYY-MM-DD") are modelled by their local-midnight day index.
External calendar / email calls are modelled by explicit result parameters.
-/

namespace EA

/-- `TimeSlot {start, end}` from src/types.ts. The source carries ISO 8601
strings; inside `computeFreeSlots` they are converted to `Date` values, so the
model uses their epoch-millisecond values directly. `end` is a Lean keyword, so
the field is named `stop`. -/
structure TimeSlot where
  start : Int
  stop : Int
deriving DecidableEq, Repr

/-- The `Preferences` record from src/types.ts (plus the `customRules` key the
database layer persists). Working hours are the "HH:MM" strings of the source. -/
structure Preferences where
  workingHoursStart : String
  workingHoursEnd : String
  timezone : String
  defaultMeetingDurationMinutes : Int
  bufferBeforeMinutes : Int
  bufferAfterMinutes : Int
  preferredPlatform : String
  maxMeetingsPerDay : Int
  noMeetingDays : List Int
  customRules : String
deriving DecidableEq, Repr

/-- Decimal digit-string evaluation, the behaviour of JavaScript `Number` on
the digit strings the system stores. -/
def digitsToNat : List Char → Nat → Nat
  | [], acc => acc
  | c :: cs, acc => digitsToNat cs (acc * 10 + (c.toNat - 48))

/-- Minutes past midnight denoted by an "HH:MM" string: the model of
`s.split(":").map(Number)` in `computeFreeSlots` for the well-formed
"HH:MM" digit strings the system stores (on any other shape the JavaScript
produces `NaN`, every `Date` comparison is false and every day is empty). -/
def timeOfDayMinutes (s : String) : Int :=
  let cs := s.toList
  let h := digitsToNat (cs.takeWhile (· ≠ ':')) 0
  let m := digitsToNat (((cs.dropWhile (· ≠ ':')).drop 1).takeWhile (· ≠ ':')) 0
  ((h * 60 + m : Nat) : Int)

/-- `day.getDay()` for a day index: day 0 of the epoch is a Thursday (4). -/
def weekday (d : Int) : Int := (d + 4) % 7

/-- The days visited by the `for (const day = ...; day <= end; ...)` loop:
`d0, d0+1, ..., d1` (empty when `d0 > d1`). -/
def dayList (d0 d1 : Int) : List Int :=
  (List.range (d1 - d0 + 1).toNat).map (fun i => d0 + (i : Int))

/-- Millisecond timestamp of minute `m` on day `d`. -/
def dayMs (d m : Int) : Int := d * 86400000 + m * 60000

/-- A busy block clipped to a day's working-hour bounds, as in the `.map`
step of `computeFreeSlots`: `start` raised to `dayStart`, `end` lowered to
`dayEnd`. -/
def clip (b : TimeSlot) (dayStart dayEnd : Int) : TimeSlot :=
  ⟨max b.start dayStart, min b.stop dayEnd⟩

/-- Two half-open intervals overlap when they share a point. -/
def overlaps (a b : TimeSlot) : Prop :=
  max a.start b.start < min a.stop b.stop

/-- Ordering by start time, the `(a, b) => a.start - b.start` comparator. -/
def slotLE (a b : TimeSlot) : Prop := a.start ≤ b.start

instance : DecidableRel slotLE := fun a b => by unfold slotLE; infer_instance

instance : IsTotal TimeSlot slotLE := ⟨fun a b => le_total a.start b.start⟩

instance : IsTrans TimeSlot slotLE := ⟨fun _ _ _ h1 h2 => le_trans h1 h2⟩

/-- The per-day block preparation of `computeFreeSlots`: keep the busy blocks
that overlap the working-hour bounds, clip them to the bounds, and sort by
start time ascending. -/
def clipBlocks (blocks : List TimeSlot) (dayStart dayEnd : Int) : List TimeSlot :=
  List.insertionSort slotLE
    (((blocks.filter (fun b => b.start < dayEnd && dayStart < b.stop)).map
      (fun b => clip b dayStart dayEnd)))

/-- The cursor walk of `computeFreeSlots`: emit the gap before each block when
it is at least `minWindowMs` long, advance the cursor to the block end, and
emit the remainder up to `dayEnd` at the end. -/
def walkGaps (blocked : List TimeSlot) (cursor dayEnd minWindowMs : Int) : List TimeSlot :=
  match blocked with
  | [] =>
    if cursor < dayEnd ∧ minWindowMs ≤ dayEnd - cursor then [⟨cursor, dayEnd⟩] else []
  | b :: rest =>
    (if cursor < b.start ∧ minWindowMs ≤ b.start - cursor then [⟨cursor, b.start⟩] else [])
      ++ walkGaps rest (max cursor b.stop) dayEnd minWindowMs

/-- One day's free windows: clip-and-sort, then walk the gaps starting from
the working-hours start. -/
def daySlots (blocks : List TimeSlot) (dayStart dayEnd minWindowMs : Int) : List TimeSlot :=
  walkGaps (clipBlocks blocks dayStart dayEnd) dayStart dayEnd minWindowMs

/-- The params object of `computeFreeSlots`; `startDate`/`endDate` are the day
indices of the "YYYY-MM-DD" inputs. -/
structure FreeSlotsParams where
  busyBlocks : List TimeSlot
  startDate : Int
  endDate : Int
  prefs : Preferences
  durationMinutes : Int
deriving DecidableEq, Repr

/-- `computeFreeSlots` from src/tools/calendar.ts: for each non-excluded day
in the range, clip the busy blocks to the day's working hours and emit every
gap of at least `durationMinutes` minutes. Pure and total: no I/O and no
failure path. -/
def computeFreeSlots (ps : FreeSlotsParams) : List TimeSlot :=
  let sMin := timeOfDayMinutes ps.prefs.workingHoursStart
  let eMin := timeOfDayMinutes ps.prefs.workingHoursEnd
  let minWindowMs := ps.durationMinutes * 60 * 1000
  ((dayList ps.startDate ps.endDate).filter
      (fun d => !(ps.prefs.noMeetingDays.contains (weekday d)))).flatMap
    (fun d => daySlots ps.busyBlocks (dayMs d sMin) (dayMs d eMin) minWindowMs)

example :
    computeFreeSlots
      { busyBlocks := [⟨468000000, 471600000⟩]
        startDate := 5, endDate := 5
        prefs := { workingHoursStart := "09:00", workingHoursEnd := "18:00",
                   timezone := "America/Los_Angeles",
                   defaultMeetingDurationMinutes := 30, bufferBeforeMinutes := 5,
                   bufferAfterMinutes := 5, preferredPlatform := "Google Meet",
                   maxMeetingsPerDay := 6, noMeetingDays := [0, 6], customRules := "" }
        durationMinutes := 30 }
      = [⟨464400000, 468000000⟩, ⟨471600000, 496800000⟩] := by decide

/-! ## Thread Store (src/db/index.ts) -/

/-- One row of the `threads` table. `proposed_slots` is stored as JSON text in
SQLite; the model keeps the parsed slot list (`JSON.stringify`/`JSON.parse`
round-trip in `upsertThread`/`rowToThread`). Timestamps (`datetime('now')`)
are modelled as integers supplied by the caller. The autoincrement rowid is
not modelled: rows are identified by the UNIQUE `thread_id`. -/
structure ThreadRow where
  thread_id : String
  state : String
  proposed_slots : Option (List TimeSlot)
  requester_email : String
  requester_name : Option String
  attendee_email : Option String
  meeting_title : Option String
  meeting_duration_minutes : Option Int
  calendar_event_id : Option String
  created_at : Int
  updated_at : Int
deriving DecidableEq, Repr

/-- The parameter object of `upsertThread`. TypeScript optional/nullable
parameters collapse to `Option` (the source binds `params.x ?? null`), and the
`ThreadState` annotation on `state` is erased at runtime, so `state` is the
raw string that reaches the SQL layer. -/
structure UpsertParams where
  threadId : String
  state : String
  requesterEmail : Option String
  requesterName : Option String
  attendeeEmail : Option String
  meetingTitle : Option String
  meetingDurationMinutes : Option Int
  proposedSlots : Option (List TimeSlot)
  calendarEventId : Option String
deriving DecidableEq, Repr

/-- SQL `COALESCE(a, b)`. -/
def coalesce (a b : Option α) : Option α :=
  match a with
  | some v => some v
  | none => b

/-- `getThread`: `SELECT * FROM threads WHERE thread_id = ?`. -/
def getThread (store : List ThreadRow) (threadId : String) : Option ThreadRow :=
  store.find? (fun r => r.thread_id == threadId)

/-- The `ON CONFLICT(thread_id) DO UPDATE SET` arm of `upsertThread`:
`state` and `proposed_slots` take the excluded (new) value unconditionally,
the other writable fields via `COALESCE(excluded.x, x)`; `thread_id`,
`requester_email` and `created_at` are not in the update list. -/
def upsertRow (old : ThreadRow) (p : UpsertParams) (now : Int) : ThreadRow :=
  { thread_id := old.thread_id
    state := p.state
    proposed_slots := p.proposedSlots
    requester_email := old.requester_email
    requester_name := coalesce p.requesterName old.requester_name
    attendee_email := coalesce p.attendeeEmail old.attendee_email
    meeting_title := coalesce p.meetingTitle old.meeting_title
    meeting_duration_minutes := coalesce p.meetingDurationMinutes old.meeting_duration_minutes
    calendar_event_id := coalesce p.calendarEventId old.calendar_event_id
    created_at := old.created_at
    updated_at := now }

/-- The INSERT arm of `upsertThread`: a missing requester email is bound as
`params.requesterEmail ?? ""`. -/
def insertRow (p : UpsertParams) (now : Int) : ThreadRow :=
  { thread_id := p.threadId
    state := p.state
    proposed_slots := p.proposedSlots
    requester_email := p.requesterEmail.getD ""
    requester_name := p.requesterName
    attendee_email := p.attendeeEmail
    meeting_title := p.meetingTitle
    meeting_duration_minutes := p.meetingDurationMinutes
    calendar_event_id := p.calendarEventId
    created_at := now
    updated_at := now }

/-- `upsertThread` from src/db/index.ts: insert-or-update keyed on
`thread_id`, returning the updated store together with the row the source
re-reads via `getThread(params.threadId)!`. There is no validation of any
field at this boundary. -/
def upsertThread (store : List ThreadRow) (p : UpsertParams) (now : Int) :
    List ThreadRow × ThreadRow :=
  match getThread store p.threadId with
  | some old =>
    (store.map (fun q => if q.thread_id == p.threadId then upsertRow q p now else q),
     upsertRow old p now)
  | none => (store ++ [insertRow p now], insertRow p now)

/-- The four `ThreadState` values of src/types.ts. -/
def validThreadStates : List String := ["new", "awaiting_confirmation", "booked", "cancelled"]

/-! ## Preference Store (src/db/index.ts, src/tools/preferences.ts) -/

/-- The seeded defaults (`DEFAULT_PREFERENCES` in src/db/index.ts). The
timezone default is `process.env.OWNER_TIMEZONE ?? "America/Los_Angeles"`;
the model uses the fallback literal — only key identity matters here. -/
def DEFAULT_PREFERENCES : List (String × String) :=
  [("workingHoursStart", "09:00"),
   ("workingHoursEnd", "18:00"),
   ("timezone", "America/Los_Angeles"),
   ("defaultMeetingDurationMinutes", "30"),
   ("bufferBeforeMinutes", "5"),
   ("bufferAfterMinutes", "5"),
   ("preferredPlatform", "Google Meet"),
   ("maxMeetingsPerDay", "6"),
   ("noMeetingDays", "[0,6]"),
   ("customRules", "")]

/-- `setPreference`: `INSERT OR REPLACE INTO preferences (key, value)`. -/
def setPreference (key value : String) (store : List (String × String)) :
    List (String × String) :=
  if store.any (fun kv => kv.1 == key) then
    store.map (fun kv => if kv.1 == key then (key, value) else kv)
  else
    store ++ [(key, value)]

/-- The `validKeys` allowlist of `toolSetPreference` (src/tools/preferences.ts).
Note it does not contain `"customRules"`. -/
def validKeys : List String :=
  ["workingHoursStart",
   "workingHoursEnd",
   "timezone",
   "defaultMeetingDurationMinutes",
   "bufferBeforeMinutes",
   "bufferAfterMinutes",
   "preferredPlatform",
   "maxMeetingsPerDay",
   "noMeetingDays"]

/-- `toolSetPreference`: throws `Unknown preference key: <key>` for keys
outside `validKeys`, otherwise writes through `setPreference`. -/
def toolSetPreference (key value : String) (store : List (String × String)) :
    Except String (List (String × String)) :=
  if validKeys.contains key then
    Except.ok (setPreference key value store)
  else
    Except.error ("Unknown preference key: " ++ key)

/-! ## Booking (the `book_meeting` branch of `executeTool`, src/agent.ts) -/

/-- `BookingResult` from src/tools/calendar.ts. -/
structure BookingResult where
  eventId : String
  eventLink : String
  meetLink : Option String
deriving DecidableEq, Repr

/-- The `book_meeting` tool input (title/start/end are opaque strings passed
through to the calendar API). -/
structure BookInput where
  title : String
  startTime : String
  endTime : String
  attendeeEmail : String
  attendeeName : Option String
  description : Option String
  existingEventId : Option String
deriving DecidableEq, Repr

/-- The `toolUpdateThreadState` call at the end of a successful booking:
state `"booked"`, the booked event id and the attendee email; no other
fields are supplied. -/
def bookRecordParams (ctxThreadId attendeeEmail eventId : String) : UpsertParams :=
  { threadId := ctxThreadId
    state := "booked"
    requesterEmail := none
    requesterName := none
    attendeeEmail := some attendeeEmail
    meetingTitle := none
    meetingDurationMinutes := none
    proposedSlots := none
    calendarEventId := some eventId }

/-- The `book_meeting` branch of `executeTool`. The two external calendar
calls are modelled by explicit results: `updateResult` is the outcome
`toolUpdateCalendarEvent` would produce if called, `createResult` the outcome
of `toolCreateCalendarEvent` if called. The returned `Bool` records whether
the create path ran (the spec's `BookingOutcome.created`); on the successful
update path the source builds an outcome with the reused event id, an empty
event link and no meet link. The candidate event id is
`toolInput.existingEventId ?? thread?.calendarEventId`, and
`if (existingEventId)` treats the empty string as falsy. After either
successful path the source calls `toolUpdateThreadState` with state
`"booked"`, the booked event id and the attendee email (only those fields). -/
def bookMeeting (input : BookInput) (ctxThreadId : String) (store : List ThreadRow)
    (now : Int) (updateResult : Except String Unit)
    (createResult : Except String BookingResult) :
    Except String (BookingResult × Bool × List ThreadRow) :=
  let existingEventId : Option String :=
    coalesce input.existingEventId ((getThread store ctxThreadId).bind
      (fun t => t.calendar_event_id))
  let record := fun (b : BookingResult) =>
    (upsertThread store (bookRecordParams ctxThreadId input.attendeeEmail b.eventId) now).1
  let createPath :=
    match createResult with
    | Except.ok booking => Except.ok (booking, true, record booking)
    | Except.error e => Except.error e
  match existingEventId with
  | some eid =>
    if eid ≠ "" then
      match updateResult with
      | Except.ok _ =>
        let booking : BookingResult := { eventId := eid, eventLink := "", meetLink := none }
        Except.ok (booking, false, record booking)
      | Except.error _ => createPath
    else createPath
  | none => createPath

/-! ## Cancellation (the `cancel_meeting` branch of `executeTool`) -/

/-- Modelled from the spec: `toolCancelCalendarEvent` (the tail of
src/tools/calendar.ts is not in the provided sources) is the calendar-boundary
`cancelEvent(eventId) -> void` that marks the calendar event cancelled and
notifies attendees. src/tools/calendar.ts imports only the Google API client
and type definitions, so this call cannot touch the Thread Store; its outcome
is the explicit `result` parameter. -/
def toolCancelCalendarEvent (_eventId : String) (result : Except String Unit) :
    Except String Unit :=
  result

/-- The `cancel_meeting` branch of `executeTool` (src/agent.ts): it only
forwards to `toolCancelCalendarEvent` and returns — the Thread Store is not
consulted or written. -/
def cancelMeeting (eventId : String) (store : List ThreadRow)
    (result : Except String Unit) : Except String (Unit × List ThreadRow) :=
  match toolCancelCalendarEvent eventId result with
  | Except.ok _ => Except.ok ((), store)
  | Except.error e => Except.error e

/-! ## Lemmas about the availability engine -/

theorem timeOfDayMinutes_nonneg (s : String) : 0 ≤ timeOfDayMinutes s := by
  unfold timeOfDayMinutes
  exact Int.ofNat_nonneg _

theorem walkGaps_start_ge {w : TimeSlot} :
    ∀ (bs : List TimeSlot) (c de m : Int), w ∈ walkGaps bs c de m → c ≤ w.start := by
  intro bs
  induction bs with
  | nil =>
    intro c de m hw
    unfold walkGaps at hw
    split at hw
    · rcases List.mem_singleton.mp hw with rfl; exact le_refl _
    · exact absurd hw (List.not_mem_nil w)
  | cons b rest ih =>
    intro c de m hw
    unfold walkGaps at hw
    rcases List.mem_append.mp hw with hl | hr
    · split at hl
      · rcases List.mem_singleton.mp hl with rfl; exact le_refl _
      · exact absurd hl (List.not_mem_nil w)
    · exact le_trans (le_max_left c b.stop) (ih _ _ _ hr)

theorem walkGaps_stop_le {w : TimeSlot} :
    ∀ (bs : List TimeSlot) (c de m : Int), (∀ b ∈ bs, b.start ≤ de) →
      w ∈ walkGaps bs c de m → w.stop ≤ de := by
  intro bs
  induction bs with
  | nil =>
    intro c de m _ hw
    unfold walkGaps at hw
    split at hw
    · rcases List.mem_singleton.mp hw with rfl; exact le_refl _
    · exact absurd hw (List.not_mem_nil w)
  | cons b rest ih =>
    intro c de m hall hw
    unfold walkGaps at hw
    rcases List.mem_append.mp hw with hl | hr
    · split at hl
      · rcases List.mem_singleton.mp hl with rfl
        exact hall b (List.mem_cons_self b rest)
      · exact absurd hl (List.not_mem_nil w)
    · exact ih _ _ _ (fun x hx => hall x (List.mem_cons_of_mem b hx)) hr

theorem walkGaps_min_len {w : TimeSlot} :
    ∀ (bs : List TimeSlot) (c de m : Int), w ∈ walkGaps bs c de m →
      m ≤ w.stop - w.start := by
  intro bs
  induction bs with
  | nil =>
    intro c de m hw
    unfold walkGaps at hw
    split at hw
    · next h => rcases List.mem_singleton.mp hw with rfl; exact h.2
    · exact absurd hw (List.not_mem_nil w)
  | cons b rest ih =>
    intro c de m hw
    unfold walkGaps at hw
    rcases List.mem_append.mp hw with hl | hr
    · split at hl
      · next h => rcases List.mem_singleton.mp hl with rfl; exact h.2
      · exact absurd hl (List.not_mem_nil w)
    · exact ih _ _ _ hr

theorem walkGaps_disjoint {w b : TimeSlot} :
    ∀ (bs : List TimeSlot) (c de m : Int), List.Pairwise slotLE bs →
      w ∈ walkGaps bs c de m → b ∈ bs →
      w.stop ≤ b.start ∨ b.stop ≤ w.start := by
  intro bs
  induction bs with
  | nil => intro _ _ _ _ _ hb; exact absurd hb (List.not_mem_nil b)
  | cons b0 rest ih =>
    intro c de m hs hw hb
    obtain ⟨h0, hrest⟩ := List.pairwise_cons.mp hs
    unfold walkGaps at hw
    rcases List.mem_append.mp hw with hl | hr
    · have hw0 : w = ⟨c, b0.start⟩ := by
        split at hl
        · exact List.mem_singleton.mp hl
        · exact absurd hl (List.not_mem_nil w)
      subst hw0
      rcases List.mem_cons.mp hb with rfl | hbrest
      · exact Or.inl (le_refl _)
      · exact Or.inl (h0 b hbrest)
    · rcases List.mem_cons.mp hb with rfl | hbrest
      · have hge := walkGaps_start_ge _ _ _ _ hr
        exact Or.inr (le_trans (le_max_right c b.stop) hge)
      · exact ih _ _ _ hrest hr hbrest

theorem walkGaps_eq_nil :
    ∀ (bs : List TimeSlot) (c de m : Int), (∀ b ∈ bs, b.start ≤ c) → de ≤ c →
      walkGaps bs c de m = [] := by
  intro bs
  induction bs with
  | nil =>
    intro c de m _ hdec
    unfold walkGaps
    rw [if_neg]
    intro h
    exact absurd h.1 (not_lt.mpr hdec)
  | cons b rest ih =>
    intro c de m hall hdec
    unfold walkGaps
    rw [if_neg, List.nil_append]
    · exact ih _ _ _
        (fun x hx => le_trans (hall x (List.mem_cons_of_mem b hx)) (le_max_left c b.stop))
        (le_trans hdec (le_max_left c b.stop))
    · intro h
      exact absurd h.1 (not_lt.mpr (hall b (List.mem_cons_self b rest)))

theorem mem_clipBlocks_iff {x : TimeSlot} {blocks : List TimeSlot} {ds de : Int} :
    x ∈ clipBlocks blocks ds de ↔
      ∃ b ∈ blocks, (b.start < de ∧ ds < b.stop) ∧ x = clip b ds de := by
  unfold clipBlocks
  rw [(List.perm_insertionSort slotLE _).mem_iff, List.mem_map]
  constructor
  · rintro ⟨b, hb, rfl⟩
    obtain ⟨hbm, hbp⟩ := List.mem_filter.mp hb
    refine ⟨b, hbm, ?_, rfl⟩
    simpa [decide_eq_true_eq] using hbp
  · rintro ⟨b, hbm, hbp, rfl⟩
    exact ⟨b, List.mem_filter.mpr ⟨hbm, by simpa [decide_eq_true_eq] using hbp⟩, rfl⟩

theorem sorted_clipBlocks (blocks : List TimeSlot) (ds de : Int) :
    List.Pairwise slotLE (clipBlocks blocks ds de) :=
  List.sorted_insertionSort slotLE _

theorem daySlots_eq_nil {blocks : List TimeSlot} {ds de m : Int} (h : de ≤ ds) :
    daySlots blocks ds de m = [] := by
  unfold daySlots
  refine walkGaps_eq_nil _ _ _ _ ?_ h
  intro x hx
  obtain ⟨b, _, hbp, rfl⟩ := mem_clipBlocks_iff.mp hx
  have : b.start ≤ ds := le_trans (le_of_lt hbp.1) h
  unfold clip
  exact max_le this (le_refl ds)

theorem daySlots_bounds {w : TimeSlot} {blocks : List TimeSlot} {ds de m : Int}
    (hw : w ∈ daySlots blocks ds de m) : ds ≤ w.start ∧ w.stop ≤ de := by
  by_cases h : de ≤ ds
  · rw [daySlots_eq_nil h] at hw
    exact absurd hw (List.not_mem_nil w)
  · have hlt : ds ≤ de := le_of_lt (lt_of_not_le h)
    refine ⟨walkGaps_start_ge _ _ _ _ hw, ?_⟩
    refine walkGaps_stop_le _ _ _ _ ?_ hw
    intro x hx
    obtain ⟨b, _, hbp, rfl⟩ := mem_clipBlocks_iff.mp hx
    unfold clip
    exact max_le (le_of_lt hbp.1) hlt

theorem daySlots_disjoint_clip {w b : TimeSlot} {blocks : List TimeSlot} {ds de m : Int}
    (hw : w ∈ daySlots blocks ds de m) (hb : b ∈ blocks) :
    w.stop ≤ (clip b ds de).start ∨ (clip b ds de).stop ≤ w.start := by
  by_cases hf : b.start < de ∧ ds < b.stop
  · exact walkGaps_disjoint _ _ _ _ (sorted_clipBlocks blocks ds de) hw
      (mem_clipBlocks_iff.mpr ⟨b, hb, hf, rfl⟩)
  · obtain ⟨hws, hwe⟩ := daySlots_bounds hw
    rcases not_and_or.mp hf with hde | hds
    · left
      have : de ≤ b.start := not_lt.mp hde
      exact le_trans hwe (le_trans this (le_max_left b.start ds))
    · right
      have : b.stop ≤ ds := not_lt.mp hds
      exact le_trans (min_le_left b.stop de) (le_trans this hws)

theorem not_overlaps_of_le {a b : TimeSlot}
    (h : a.stop ≤ b.start ∨ b.stop ≤ a.start) : ¬ overlaps a b := by
  unfold overlaps
  intro hc
  have h1 : b.start < a.stop := lt_of_le_of_lt (le_max_right a.start b.start)
    (lt_of_lt_of_le hc (min_le_left a.stop b.stop))
  have h2 : a.start < b.stop := lt_of_le_of_lt (le_max_left a.start b.start)
    (lt_of_lt_of_le hc (min_le_right a.stop b.stop))
  rcases h with h | h
  · exact absurd h1 (not_lt.mpr h)
  · exact absurd h2 (not_lt.mpr h)

theorem mem_computeFreeSlots {w : TimeSlot} {ps : FreeSlotsParams}
    (hw : w ∈ computeFreeSlots ps) :
    ∃ d ∈ dayList ps.startDate ps.endDate,
      w ∈ daySlots ps.busyBlocks
        (dayMs d (timeOfDayMinutes ps.prefs.workingHoursStart))
        (dayMs d (timeOfDayMinutes ps.prefs.workingHoursEnd))
        (ps.durationMinutes * 60 * 1000) := by
  unfold computeFreeSlots at hw
  obtain ⟨d, hd, hwd⟩ := List.mem_flatMap.mp hw
  exact ⟨d, (List.mem_filter.mp hd).1, hwd⟩

theorem flatMapNilOfAll {l : List α} {f : α → List β}
    (h : ∀ a ∈ l, f a = []) : l.flatMap f = [] := by
  induction l with
  | nil => rfl
  | cons a l ih =>
    rw [List.flatMap_cons, h a (List.mem_cons_self a l), List.nil_append]
    exact ih (fun x hx => h x (List.mem_cons_of_mem a hx))

/-! ## Claim theorems: availability engine -/

/-- C5: for all busy blocks, date range and duration, two runs of
`computeFreeSlots` whose preferences differ only in `bufferBeforeMinutes`
and/or `bufferAfterMinutes` return identical window lists — the algorithm
never reads the buffer fields. -/
theorem computeFreeSlots_buffers_irrelevant (ps : FreeSlotsParams) (b1 b2 : Int) :
    computeFreeSlots
      { ps with prefs :=
          { ps.prefs with bufferBeforeMinutes := b1, bufferAfterMinutes := b2 } }
      = computeFreeSlots ps := rfl

/-- C7: every window returned by `computeFreeSlots` has duration at least the
requested `durationMinutes` (in the source's milliseconds,
`durationMinutes * 60 * 1000`); any shorter candidate gap is excluded. -/
theorem computeFreeSlots_min_duration (ps : FreeSlotsParams) (w : TimeSlot)
    (hw : w ∈ computeFreeSlots ps) :
    ps.durationMinutes * 60 * 1000 ≤ w.stop - w.start := by
  obtain ⟨d, _, hwd⟩ := mem_computeFreeSlots hw
  unfold daySlots at hwd
  exact walkGaps_min_len _ _ _ _ hwd

/-- The Tuesday scenario of the spec: working hours 09:00–18:00, no-meeting
days Sunday and Saturday, one busy block 10:00–11:00 on day 5 (a Tuesday),
duration 30 minutes. -/
def scenarioTuesday : FreeSlotsParams :=
  { busyBlocks := [⟨468000000, 471600000⟩]
    startDate := 5, endDate := 5
    prefs := { workingHoursStart := "09:00", workingHoursEnd := "18:00",
               timezone := "America/Los_Angeles",
               defaultMeetingDurationMinutes := 30, bufferBeforeMinutes := 5,
               bufferAfterMinutes := 5, preferredPlatform := "Google Meet",
               maxMeetingsPerDay := 6, noMeetingDays := [0, 6], customRules := "" }
    durationMinutes := 30 }

theorem computeFreeSlots_min_duration_witness :
    (⟨464400000, 468000000⟩ : TimeSlot) ∈ computeFreeSlots scenarioTuesday ∧
    scenarioTuesday.durationMinutes * 60 * 1000 ≤ (468000000 : Int) - 464400000 :=
  ⟨by decide, computeFreeSlots_min_duration scenarioTuesday ⟨464400000, 468000000⟩ (by decide)⟩

/-- C6: with well-formed preferences (the working-hours end denotes a
time of day, at most 1440 minutes), no window returned by `computeFreeSlots`
overlaps any input busy block once that block is clipped to a queried day's
working-hour bounds. -/
theorem computeFreeSlots_no_overlap_clipped (ps : FreeSlotsParams)
    (hwf : timeOfDayMinutes ps.prefs.workingHoursEnd ≤ 1440)
    (w : TimeSlot) (hw : w ∈ computeFreeSlots ps)
    (b : TimeSlot) (hb : b ∈ ps.busyBlocks)
    (d : Int) (_hd : d ∈ dayList ps.startDate ps.endDate) :
    ¬ overlaps w
      (clip b (dayMs d (timeOfDayMinutes ps.prefs.workingHoursStart))
              (dayMs d (timeOfDayMinutes ps.prefs.workingHoursEnd))) := by
  obtain ⟨d1, hd1, hwd⟩ := mem_computeFreeSlots hw
  apply not_overlaps_of_le
  by_cases hdd : d = d1
  · subst hdd
    exact daySlots_disjoint_clip hwd hb
  · obtain ⟨hws, hwe⟩ := daySlots_bounds hwd
    have hs0 : 0 ≤ timeOfDayMinutes ps.prefs.workingHoursStart := timeOfDayMinutes_nonneg _
    have hcs : dayMs d (timeOfDayMinutes ps.prefs.workingHoursStart) ≤
        (clip b (dayMs d (timeOfDayMinutes ps.prefs.workingHoursStart))
          (dayMs d (timeOfDayMinutes ps.prefs.workingHoursEnd))).start :=
      le_max_right _ _
    have hce : (clip b (dayMs d (timeOfDayMinutes ps.prefs.workingHoursStart))
          (dayMs d (timeOfDayMinutes ps.prefs.workingHoursEnd))).stop ≤
        dayMs d (timeOfDayMinutes ps.prefs.workingHoursEnd) :=
      min_le_right _ _
    rcases lt_or_gt_of_ne hdd with hlt | hgt
    · right
      have hmid : dayMs d (timeOfDayMinutes ps.prefs.workingHoursEnd) ≤
          dayMs d1 (timeOfDayMinutes ps.prefs.workingHoursStart) := by
        unfold dayMs
        omega
      exact le_trans hce (le_trans hmid hws)
    · left
      have hmid : dayMs d1 (timeOfDayMinutes ps.prefs.workingHoursEnd) ≤
          dayMs d (timeOfDayMinutes ps.prefs.workingHoursStart) := by
        unfold dayMs
        omega
      exact le_trans hwe (le_trans hmid hcs)

theorem computeFreeSlots_no_overlap_clipped_witness :
    timeOfDayMinutes scenarioTuesday.prefs.workingHoursEnd ≤ 1440 ∧
    (⟨471600000, 496800000⟩ : TimeSlot) ∈ computeFreeSlots scenarioTuesday ∧
    (⟨468000000, 471600000⟩ : TimeSlot) ∈ scenarioTuesday.busyBlocks ∧
    (5 : Int) ∈ dayList scenarioTuesday.startDate scenarioTuesday.endDate ∧
    ¬ overlaps ⟨471600000, 496800000⟩
      (clip ⟨468000000, 471600000⟩
        (dayMs 5 (timeOfDayMinutes scenarioTuesday.prefs.workingHoursStart))
        (dayMs 5 (timeOfDayMinutes scenarioTuesday.prefs.workingHoursEnd))) :=
  ⟨by decide, by decide, by decide, by decide,
   computeFreeSlots_no_overlap_clipped scenarioTuesday (by decide)
     ⟨471600000, 496800000⟩ (by decide) ⟨468000000, 471600000⟩ (by decide) 5 (by decide)⟩

/-- C10: `computeFreeSlots` is a total pure function (it is a plain Lean
function with no failure path), and when the preferences are malformed with
working-hours start at or after working-hours end, it returns the empty
window list — every day contributes nothing — rather than an error. -/
theorem computeFreeSlots_startGeEnd_empty (ps : FreeSlotsParams)
    (h : timeOfDayMinutes ps.prefs.workingHoursEnd ≤
         timeOfDayMinutes ps.prefs.workingHoursStart) :
    computeFreeSlots ps = [] := by
  unfold computeFreeSlots
  apply flatMapNilOfAll
  intro d _
  apply daySlots_eq_nil
  unfold dayMs
  omega

/-- Malformed preferences: working hours start 18:00, end 09:00. -/
def scenarioMalformed : FreeSlotsParams :=
  { busyBlocks := [⟨464400000, 468000000⟩, ⟨470000000, 480000000⟩]
    startDate := 4, endDate := 8
    prefs := { workingHoursStart := "18:00", workingHoursEnd := "09:00",
               timezone := "America/Los_Angeles",
               defaultMeetingDurationMinutes := 30, bufferBeforeMinutes := 5,
               bufferAfterMinutes := 5, preferredPlatform := "Google Meet",
               maxMeetingsPerDay := 6, noMeetingDays := [0, 6], customRules := "" }
    durationMinutes := 30 }

theorem computeFreeSlots_startGeEnd_empty_witness :
    timeOfDayMinutes scenarioMalformed.prefs.workingHoursEnd ≤
      timeOfDayMinutes scenarioMalformed.prefs.workingHoursStart ∧
    computeFreeSlots scenarioMalformed = [] :=
  ⟨by decide, computeFreeSlots_startGeEnd_empty scenarioMalformed (by decide)⟩

/-! ## Lemmas about the Thread Store -/

theorem getThread_map_upsert {store : List ThreadRow} {tid : String} {old : ThreadRow}
    (p : UpsertParams) (now : Int) (h : getThread store tid = some old) :
    getThread (store.map (fun q => if q.thread_id == tid then upsertRow q p now else q)) tid
      = some (upsertRow old p now) := by
  induction store with
  | nil => simp [getThread] at h
  | cons r rest ih =>
    unfold getThread at h ⊢
    simp only [List.map_cons]
    by_cases hr : (r.thread_id == tid) = true
    · rw [@List.find?_cons_of_pos ThreadRow (fun x => x.thread_id == tid) r rest hr] at h
      injection h with h
      subst h
      rw [if_pos hr]
      exact @List.find?_cons_of_pos ThreadRow (fun x => x.thread_id == tid)
        (upsertRow r p now) _ hr
    · rw [@List.find?_cons_of_neg ThreadRow (fun x => x.thread_id == tid) r rest hr] at h
      rw [if_neg hr]
      rw [@List.find?_cons_of_neg ThreadRow (fun x => x.thread_id == tid) r _ hr]
      exact ih h

theorem getThread_upsertThread (store : List ThreadRow) (p : UpsertParams) (now : Int) :
    getThread (upsertThread store p now).1 p.threadId
      = some (upsertThread store p now).2 := by
  unfold upsertThread
  split
  · next old h => exact getThread_map_upsert p now h
  · next h =>
    unfold getThread at h ⊢
    rw [List.find?_append, h]
    simp [insertRow]

theorem upsertThread_snd_calId (store : List ThreadRow) (p : UpsertParams) (now : Int)
    (v : String) (hp : p.calendarEventId = some v) :
    (upsertThread store p now).2.calendar_event_id = some v := by
  unfold upsertThread
  split
  · simp [upsertRow, coalesce, hp]
  · simp [insertRow, hp]

/-! ## Claim theorems: Thread Store -/

/-- C1: on an upsert hitting an existing thread record (keyed by the
conversation identifier), every field omitted from the write (`none`)
preserves the prior stored value, while `state` and `proposedSlots` always
take the newly supplied value, including an explicit clearing to null. -/
theorem upsertThread_mergeByField (store : List ThreadRow) (p : UpsertParams)
    (now : Int) (old : ThreadRow) (h : getThread store p.threadId = some old) :
    (upsertThread store p now).2.state = p.state ∧
    (upsertThread store p now).2.proposed_slots = p.proposedSlots ∧
    (p.requesterEmail = none →
      (upsertThread store p now).2.requester_email = old.requester_email) ∧
    (p.requesterName = none →
      (upsertThread store p now).2.requester_name = old.requester_name) ∧
    (p.attendeeEmail = none →
      (upsertThread store p now).2.attendee_email = old.attendee_email) ∧
    (p.meetingTitle = none →
      (upsertThread store p now).2.meeting_title = old.meeting_title) ∧
    (p.meetingDurationMinutes = none →
      (upsertThread store p now).2.meeting_duration_minutes = old.meeting_duration_minutes) ∧
    (p.calendarEventId = none →
      (upsertThread store p now).2.calendar_event_id = old.calendar_event_id) := by
  have hsnd : (upsertThread store p now).2 = upsertRow old p now := by
    unfold upsertThread
    rw [h]
  rw [hsnd]
  unfold upsertRow
  refine ⟨rfl, rfl, fun _ => rfl, ?_, ?_, ?_, ?_, ?_⟩
  all_goals intro hx; simp [coalesce, hx]

def c1row : ThreadRow :=
  { thread_id := "t1", state := "awaiting_confirmation"
    proposed_slots := some [⟨0, 1800000⟩]
    requester_email := "alice@example.com", requester_name := some "Alice"
    attendee_email := none, meeting_title := none
    meeting_duration_minutes := none, calendar_event_id := none
    created_at := 10, updated_at := 10 }

def c1p : UpsertParams :=
  { threadId := "t1", state := "booked"
    requesterEmail := none, requesterName := none
    attendeeEmail := some "bob@example.com", meetingTitle := none
    meetingDurationMinutes := none, proposedSlots := none
    calendarEventId := some "ev1" }

theorem upsertThread_mergeByField_witness :
    getThread [c1row] c1p.threadId = some c1row ∧
    ((upsertThread [c1row] c1p 20).2.state = c1p.state ∧
     (upsertThread [c1row] c1p 20).2.proposed_slots = c1p.proposedSlots ∧
     (c1p.requesterEmail = none →
       (upsertThread [c1row] c1p 20).2.requester_email = c1row.requester_email) ∧
     (c1p.requesterName = none →
       (upsertThread [c1row] c1p 20).2.requester_name = c1row.requester_name) ∧
     (c1p.attendeeEmail = none →
       (upsertThread [c1row] c1p 20).2.attendee_email = c1row.attendee_email) ∧
     (c1p.meetingTitle = none →
       (upsertThread [c1row] c1p 20).2.meeting_title = c1row.meeting_title) ∧
     (c1p.meetingDurationMinutes = none →
       (upsertThread [c1row] c1p 20).2.meeting_duration_minutes = c1row.meeting_duration_minutes) ∧
     (c1p.calendarEventId = none →
       (upsertThread [c1row] c1p 20).2.calendar_event_id = c1row.calendar_event_id)) :=
  ⟨by decide, upsertThread_mergeByField [c1row] c1p 20 c1row (by decide)⟩

/-- The write `{state: "booked"}` alone: only the conversation identifier and
the state are supplied. -/
def bookedOnlyParams (tid : String) : UpsertParams :=
  { threadId := tid, state := "booked"
    requesterEmail := none, requesterName := none
    attendeeEmail := none, meetingTitle := none
    meetingDurationMinutes := none, proposedSlots := none
    calendarEventId := none }

def c3row : ThreadRow :=
  { thread_id := "t3", state := "awaiting_confirmation"
    proposed_slots := some [⟨100, 200⟩]
    requester_email := "carol@example.com", requester_name := some "Carol"
    attendee_email := some "dan@example.com", meeting_title := some "Sync"
    meeting_duration_minutes := some 30, calendar_event_id := some "ev3"
    created_at := 1, updated_at := 1 }

/-- C3 counterexample: writing `{state: "booked"}` alone on an existing thread
with non-null proposed slots does not change only `state` and the timestamp —
it also clears `proposed_slots` to null. -/
theorem upsertThread_bookedOnly_cex :
    (upsertThread [c3row] (bookedOnlyParams "t3") 2).2.proposed_slots
        ≠ c3row.proposed_slots ∧
    (upsertThread [c3row] (bookedOnlyParams "t3") 2).2.state = "booked" := by decide

/-- C3 amended: writing `{state: "booked"}` alone on an existing thread
preserves all previously stored identity fields (requester email and name,
attendee email, title, duration, calendar event reference) and the creation
timestamp, sets `state` and the update timestamp — and clears
`proposed_slots` to null, since that field always takes the supplied value. -/
theorem upsertThread_bookedOnly_amended (store : List ThreadRow) (tid : String)
    (now : Int) (old : ThreadRow) (h : getThread store tid = some old) :
    (upsertThread store (bookedOnlyParams tid) now).2.requester_email = old.requester_email ∧
    (upsertThread store (bookedOnlyParams tid) now).2.requester_name = old.requester_name ∧
    (upsertThread store (bookedOnlyParams tid) now).2.attendee_email = old.attendee_email ∧
    (upsertThread store (bookedOnlyParams tid) now).2.meeting_title = old.meeting_title ∧
    (upsertThread store (bookedOnlyParams tid) now).2.meeting_duration_minutes
        = old.meeting_duration_minutes ∧
    (upsertThread store (bookedOnlyParams tid) now).2.calendar_event_id
        = old.calendar_event_id ∧
    (upsertThread store (bookedOnlyParams tid) now).2.created_at = old.created_at ∧
    (upsertThread store (bookedOnlyParams tid) now).2.state = "booked" ∧
    (upsertThread store (bookedOnlyParams tid) now).2.updated_at = now ∧
    (upsertThread store (bookedOnlyParams tid) now).2.proposed_slots = none := by
  have hsnd : (upsertThread store (bookedOnlyParams tid) now).2
      = upsertRow old (bookedOnlyParams tid) now := by
    unfold upsertThread
    rw [show (bookedOnlyParams tid).threadId = tid from rfl, h]
  rw [hsnd]
  simp [upsertRow, bookedOnlyParams, coalesce]

theorem upsertThread_bookedOnly_amended_witness :
    getThread [c3row] "t3" = some c3row ∧
    ((upsertThread [c3row] (bookedOnlyParams "t3") 2).2.requester_email
        = c3row.requester_email ∧
     (upsertThread [c3row] (bookedOnlyParams "t3") 2).2.requester_name
        = c3row.requester_name ∧
     (upsertThread [c3row] (bookedOnlyParams "t3") 2).2.attendee_email
        = c3row.attendee_email ∧
     (upsertThread [c3row] (bookedOnlyParams "t3") 2).2.meeting_title
        = c3row.meeting_title ∧
     (upsertThread [c3row] (bookedOnlyParams "t3") 2).2.meeting_duration_minutes
        = c3row.meeting_duration_minutes ∧
     (upsertThread [c3row] (bookedOnlyParams "t3") 2).2.calendar_event_id
        = c3row.calendar_event_id ∧
     (upsertThread [c3row] (bookedOnlyParams "t3") 2).2.created_at = c3row.created_at ∧
     (upsertThread [c3row] (bookedOnlyParams "t3") 2).2.state = "booked" ∧
     (upsertThread [c3row] (bookedOnlyParams "t3") 2).2.updated_at = 2 ∧
     (upsertThread [c3row] (bookedOnlyParams "t3") 2).2.proposed_slots = none) :=
  ⟨by decide, upsertThread_bookedOnly_amended [c3row] "t3" 2 c3row (by decide)⟩

def c4row : ThreadRow :=
  { thread_id := "t4", state := "new", proposed_slots := none
    requester_email := "eve@example.com", requester_name := none
    attendee_email := none, meeting_title := none
    meeting_duration_minutes := none, calendar_event_id := none
    created_at := 0, updated_at := 0 }

def c4p : UpsertParams :=
  { threadId := "t4", state := "totally-bogus"
    requesterEmail := none, requesterName := none
    attendeeEmail := none, meetingTitle := none
    meetingDurationMinutes := none, proposedSlots := none
    calendarEventId := none }

/-- C4 counterexample: a thread write carrying the unrecognized lifecycle
state "totally-bogus" is not rejected at the store boundary — the write is
applied, the prior persisted record is modified, and the bogus state is
persisted verbatim. -/
theorem upsertThread_invalidState_cex :
    validThreadStates.contains c4p.state = false ∧
    (upsertThread [c4row] c4p 9).1 ≠ [c4row] ∧
    (upsertThread [c4row] c4p 9).2.state = "totally-bogus" := by decide

/-- C4 amended: the store boundary performs no validation: a write whose
lifecycle state lies outside the four recognized values is accepted and its
state is persisted verbatim, and a write missing the required requester
email inserts the empty string in its place instead of being rejected. -/
theorem upsertThread_noValidation_amended (store : List ThreadRow)
    (p : UpsertParams) (now : Int)
    (_hinv : validThreadStates.contains p.state = false) :
    (upsertThread store p now).2.state = p.state ∧
    (getThread store p.threadId = none → p.requesterEmail = none →
      (upsertThread store p now).2.requester_email = "") := by
  constructor
  · unfold upsertThread
    split
    · simp [upsertRow]
    · simp [insertRow]
  · intro hn he
    unfold upsertThread
    rw [hn]
    simp [insertRow, he]

theorem upsertThread_noValidation_amended_witness :
    validThreadStates.contains c4p.state = false ∧
    ((upsertThread [] c4p 9).2.state = c4p.state ∧
     (getThread [] c4p.threadId = none → c4p.requesterEmail = none →
       (upsertThread [] c4p 9).2.requester_email = "")) :=
  ⟨by decide, upsertThread_noValidation_amended [] c4p 9 (by decide)⟩

/-! ## Claim theorems: Booking Reconciler -/

theorem getThread_bookRecord (store : List ThreadRow) (tid ae eid : String) (now : Int) :
    (getThread (upsertThread store (bookRecordParams tid ae eid) now).1 tid).bind
      (fun t => t.calendar_event_id) = some eid := by
  have h1 := getThread_upsertThread store (bookRecordParams tid ae eid) now
  have h2 := upsertThread_snd_calId store (bookRecordParams tid ae eid) now eid rfl
  rw [show (bookRecordParams tid ae eid).threadId = tid from rfl] at h1
  rw [h1]
  simpa using h2

theorem bookMeeting_update_ok_eq (input : BookInput) (tid : String)
    (store : List ThreadRow) (now : Int) (cr : Except String BookingResult)
    (eid : String)
    (hcand : coalesce input.existingEventId
      ((getThread store tid).bind (fun t => t.calendar_event_id)) = some eid)
    (hne : eid ≠ "") :
    bookMeeting input tid store now (Except.ok ()) cr
      = Except.ok (⟨eid, "", none⟩, false,
          (upsertThread store (bookRecordParams tid input.attendeeEmail eid) now).1) := by
  simp only [bookMeeting]
  rw [hcand]
  simp [hne]

theorem bookMeeting_update_err_eq (input : BookInput) (tid : String)
    (store : List ThreadRow) (now : Int) (e : String) (nb : BookingResult)
    (eid : String)
    (hcand : coalesce input.existingEventId
      ((getThread store tid).bind (fun t => t.calendar_event_id)) = some eid)
    (hne : eid ≠ "") :
    bookMeeting input tid store now (Except.error e) (Except.ok nb)
      = Except.ok (nb, true,
          (upsertThread store (bookRecordParams tid input.attendeeEmail nb.eventId) now).1) := by
  simp only [bookMeeting]
  rw [hcand]
  simp [hne]

/-- C2 amended: when a non-empty candidate event reference is available
(explicitly supplied or stored on the thread): if the calendar update call
succeeds, the outcome is `created = false` with the candidate reference and
the thread's stored event reference afterwards equals that candidate — so it
is unchanged exactly when the candidate came from the thread's stored
reference, but it is overwritten when a different reference was explicitly
supplied; if the update call fails and creation succeeds, the outcome is
`created = true` with the new event reference, the Thread Store reflects the
new reference, and the update failure is not surfaced as an error to the
caller (the operation returns a successful outcome). -/
theorem bookMeeting_reconcile_amended (input : BookInput) (tid : String)
    (store : List ThreadRow) (now : Int) (eid : String)
    (cr : Except String BookingResult) (e : String) (nb : BookingResult)
    (hcand : coalesce input.existingEventId
      ((getThread store tid).bind (fun t => t.calendar_event_id)) = some eid)
    (hne : eid ≠ "") :
    (bookMeeting input tid store now (Except.ok ()) cr
        = Except.ok (⟨eid, "", none⟩, false,
            (upsertThread store (bookRecordParams tid input.attendeeEmail eid) now).1) ∧
      (getThread (upsertThread store (bookRecordParams tid input.attendeeEmail eid) now).1
          tid).bind (fun t => t.calendar_event_id) = some eid) ∧
    (bookMeeting input tid store now (Except.error e) (Except.ok nb)
        = Except.ok (nb, true,
            (upsertThread store (bookRecordParams tid input.attendeeEmail nb.eventId) now).1) ∧
      (getThread (upsertThread store (bookRecordParams tid input.attendeeEmail nb.eventId)
          now).1 tid).bind (fun t => t.calendar_event_id) = some nb.eventId) :=
  ⟨⟨bookMeeting_update_ok_eq input tid store now cr eid hcand hne,
    getThread_bookRecord store tid input.attendeeEmail eid now⟩,
   ⟨bookMeeting_update_err_eq input tid store now e nb eid hcand hne,
    getThread_bookRecord store tid input.attendeeEmail nb.eventId now⟩⟩

def c2row : ThreadRow :=
  { thread_id := "t2", state := "booked", proposed_slots := none
    requester_email := "frank@example.com", requester_name := none
    attendee_email := some "gina@example.com", meeting_title := none
    meeting_duration_minutes := none, calendar_event_id := some "evA"
    created_at := 0, updated_at := 0 }

def c2input : BookInput :=
  { title := "Sync", startTime := "2025-01-07T10:00:00-08:00"
    endTime := "2025-01-07T10:30:00-08:00"
    attendeeEmail := "gina@example.com", attendeeName := none
    description := none, existingEventId := some "evB" }

def c2nb : BookingResult := { eventId := "evNew", eventLink := "link", meetLink := none }

/-- C2 counterexample: the thread stores event reference "evA", the caller
explicitly supplies "evB", and the calendar update succeeds. The outcome is
`created = false`, but the thread's stored event reference changes from
"evA" to "evB" — not "unchanged" as the claim states. -/
theorem bookMeeting_refChanged_cex :
    (getThread [c2row] "t2").bind (fun t => t.calendar_event_id) = some "evA" ∧
    (bookMeeting c2input "t2" [c2row] 7 (Except.ok ()) (Except.ok c2nb)).toOption.map
        (fun r => (r.1.eventId, r.2.1,
          (getThread r.2.2 "t2").bind (fun t => t.calendar_event_id)))
      = some ("evB", false, some "evB") := by decide

theorem bookMeeting_reconcile_amended_witness :
    coalesce c2input.existingEventId
        ((getThread [c2row] "t2").bind (fun t => t.calendar_event_id)) = some "evB" ∧
    ("evB" : String) ≠ "" ∧
    ((bookMeeting c2input "t2" [c2row] 7 (Except.ok ()) (Except.ok c2nb)
        = Except.ok (⟨"evB", "", none⟩, false,
            (upsertThread [c2row] (bookRecordParams "t2" c2input.attendeeEmail "evB") 7).1) ∧
      (getThread (upsertThread [c2row]
          (bookRecordParams "t2" c2input.attendeeEmail "evB") 7).1 "t2").bind
          (fun t => t.calendar_event_id) = some "evB") ∧
     (bookMeeting c2input "t2" [c2row] 7 (Except.error "gone") (Except.ok c2nb)
        = Except.ok (c2nb, true,
            (upsertThread [c2row]
              (bookRecordParams "t2" c2input.attendeeEmail c2nb.eventId) 7).1) ∧
      (getThread (upsertThread [c2row]
          (bookRecordParams "t2" c2input.attendeeEmail c2nb.eventId) 7).1 "t2").bind
          (fun t => t.calendar_event_id) = some c2nb.eventId)) :=
  ⟨by decide, by decide,
   bookMeeting_reconcile_amended c2input "t2" [c2row] 7 "evB"
     (Except.ok c2nb) "gone" c2nb (by decide) (by decide)⟩

/-! ## Claim theorems: Preference write boundary -/

/-- C8: `toolSetPreference` rejects the free-form rule text key
`"customRules"` with a validation error, even though `customRules` is a field
of the seeded owner preference record (it is in `DEFAULT_PREFERENCES`, it is
returned by `getPreferences`, and the tool's own schema documentation and
system prompt direct callers to write it). This contradicts the code's own
documentation: the claim is right and the code's `validKeys` allowlist is
missing the key. -/
theorem toolSetPreference_customRules_bug (v : String) (store : List (String × String)) :
    toolSetPreference "customRules" v store
      = Except.error "Unknown preference key: customRules" ∧
    (DEFAULT_PREFERENCES.map Prod.fst).contains "customRules" = true ∧
    validKeys.contains "customRules" = false :=
  ⟨rfl, by decide, by decide⟩

/-! ## Claim theorems: Cancellation -/

def c9row : ThreadRow :=
  { thread_id := "t9", state := "booked", proposed_slots := none
    requester_email := "hank@example.com", requester_name := none
    attendee_email := some "ivy@example.com", meeting_title := some "Review"
    meeting_duration_minutes := some 30, calendar_event_id := some "evC"
    created_at := 3, updated_at := 4 }

/-- C9 counterexample: a successful cancellation of the explicitly identified
event "evC" leaves the Thread Store exactly as it was — the thread keyed
"t9" still has lifecycle state "booked" (no transition to "cancelled"),
while its event reference "evC" is indeed retained. -/
theorem cancelMeeting_noTransition_cex :
    cancelMeeting "evC" [c9row] (Except.ok ()) = Except.ok ((), [c9row]) ∧
    (getThread [c9row] "t9").map (fun t => t.state) = some "booked" ∧
    (getThread [c9row] "t9").bind (fun t => t.calendar_event_id) = some "evC" :=
  ⟨rfl, by decide, by decide⟩

/-- C9 amended: after a successful cancellation operation on an explicitly
identified event reference, the thread's calendar event reference is retained
(not cleared) — but only because the tool execution layer leaves the Thread
Store completely untouched: no thread's lifecycle state is transitioned to
"cancelled" by the cancellation operation. -/
theorem cancelMeeting_store_unchanged (eventId : String) (store : List ThreadRow) :
    cancelMeeting eventId store (Except.ok ()) = Except.ok ((), store) := rfl

end EA
